import Mathlib

/-!
Verification of the artman CLI orchestration subsystem
(`artman/cli/main.py`): configuration resolution (`normalize_flags`),
pipeline selection, local / containerized execution dispatch (`main`,
`_run_artman_in_docker`) and ownership reconciliation (`_change_owner`,
`_change_directory_owner`).

The Python source is shallowly embedded: pure computations become Lean
functions, the filesystem and environment become explicit inputs,
`sys.exit` / raised exceptions become `Except` errors, and logging /
chown side effects become explicit components of the returned values.
-/

namespace Artman

/-! ## Generic string and dictionary helpers -/

/-- Python's `sub in s` substring test, on character lists. -/
def infixOfB (sub : List Char) : List Char → Bool
  | [] => sub.isEmpty
  | c :: rest => sub.isPrefixOf (c :: rest) || infixOfB sub rest

/-- Python's `sub in s` substring test on strings. -/
def strContains (s sub : String) : Bool := infixOfB sub.data s.data

/-- Boolean string-prefix test via the underlying character lists. -/
def strIsPrefixOf (p s : String) : Bool := p.data.isPrefixOf s.data

/-- Lookup in an insertion-ordered dictionary (Python `d.get(k)` /
`k in d`), modelled as an association list. -/
def dictGet : List (String × String) → String → Option String
  | [], _ => none
  | (k', v') :: rest, k => if k' = k then some v' else dictGet rest k

/-- Python dict assignment `d[k] = v`: replaces the value in place when
the key is present (keeping its position), appends otherwise. -/
def dictSet : List (String × String) → String → String → List (String × String)
  | [], k, v => [(k, v)]
  | (k', v') :: rest, k, v =>
      if k' = k then (k, v) :: rest else (k', v') :: dictSet rest k v

/-- Python `d.update(d2)`: sets every key of `d2` on `d` in insertion
order. -/
def dictUpdate (d : List (String × String)) (d2 : List (String × String)) :
    List (String × String) :=
  d2.foldl (fun acc kv => dictSet acc kv.1 kv.2) d

/-! ## Path helpers

These model the `os.path` functions on POSIX paths as used by
`normalize_flags` and `_run_artman_in_docker`. `os.path.abspath`
depends on the process working directory, which is threaded explicitly.
-/

/-- Model of `os.path.abspath(p)` for a process whose working directory
is `cwd`: absolute paths are returned unchanged, a leading `./` is
dropped, and relative paths are joined onto `cwd`. -/
def abspath (cwd p : String) : String :=
  if strIsPrefixOf "/" p then p
  else if strIsPrefixOf "./" p then cwd ++ "/" ++ (p.drop 2)
  else cwd ++ "/" ++ p

/-- Model of `os.path.join(a, b)`: an absolute second component replaces
the first. -/
def pathJoin (a b : String) : String :=
  if strIsPrefixOf "/" b then b else a ++ "/" ++ b

/-- Model of `os.path.dirname(p)`: everything up to the last `/`, with
trailing slashes stripped unless the result is all slashes. -/
def dirname (p : String) : String :=
  let cs := p.data
  let i := match cs.reverse.findIdx? (fun c => c = '/') with
    | some j => cs.length - j
    | none => 0
  let head := cs.take i
  if head.all (fun c => c = '/') then ⟨head⟩
  else ⟨(head.reverse.dropWhile (fun c => c = '/')).reverse⟩

/-! ## Data model

The structured inputs of `normalize_flags`.  The `Artifact` protobuf
enumerations (`Artifact.Type`, `Artifact.Language`) live in generated
code outside this repository; their constructor sets are modelled from
the spec (section 3), which lists the seven recognized artifact types.
-/

/-- Artifact type enumeration. `TYPE_UNSPECIFIED` is modelled from the
spec: it stands for any member of the generated `Artifact.Type`
enumeration other than the seven recognized ones (the spec's "eighth,
unrecognized type"). -/
inductive ArtifactType where
  | GAPIC_ONLY
  | GAPIC
  | DISCOGAPIC
  | GRPC
  | GAPIC_CONFIG
  | DISCOGAPIC_CONFIG
  | PROTOBUF
  | TYPE_UNSPECIFIED
deriving DecidableEq, Repr

/-- Model of `Artifact.Type.Name` for the recognized members. -/
def typeName : ArtifactType → String
  | .GAPIC_ONLY => "GAPIC_ONLY"
  | .GAPIC => "GAPIC"
  | .DISCOGAPIC => "DISCOGAPIC"
  | .GRPC => "GRPC"
  | .GAPIC_CONFIG => "GAPIC_CONFIG"
  | .DISCOGAPIC_CONFIG => "DISCOGAPIC_CONFIG"
  | .PROTOBUF => "PROTOBUF"
  | .TYPE_UNSPECIFIED => "TYPE_UNSPECIFIED"

/-- Language enumeration of the artifact config, modelled from the spec
(the generated `Artifact.Language` protobuf enum is not part of this
repository). -/
inductive Language where
  | JAVA
  | PYTHON
  | GOLANG
  | CSHARP
  | RUBY
  | PHP
  | NODEJS
deriving DecidableEq, Repr

/-- Model of `Artifact.Language.Name`. -/
def languageName : Language → String
  | .JAVA => "JAVA"
  | .PYTHON => "PYTHON"
  | .GOLANG => "GOLANG"
  | .CSHARP => "CSHARP"
  | .RUBY => "RUBY"
  | .PHP => "PHP"
  | .NODEJS => "NODEJS"

/-- Modelled from the spec: the numeric value of the generated protobuf
enum member `Artifact.RUBY` (generated code, not in the repository).
The exact number is irrelevant to every theorem below: line 259 of the
source compares it to a Python string, and in Python a string never
equals an integer. -/
def Artifact_RUBY : Nat := 5

/-- Python runtime values as far as the source's comparisons need them:
line 259 compares a `str` with an `int` enum member. -/
inductive PyVal where
  | str (s : String)
  | int (n : Nat)
deriving DecidableEq, Repr

/-- Python `==` on `PyVal`: values of different types are never equal. -/
def pyEq : PyVal → PyVal → Bool
  | .str a, .str b => a == b
  | .int a, .int b => a == b
  | _, _ => false

/-- The CLI flags record after `parse_args` (paths still as given on the
command line; `normalize_flags` resolves them). -/
structure Flags where
  root_dir : String
  config : String
  output_dir : String
  artifact_name : String
  generator_args : String
deriving DecidableEq, Repr

/-- The user configuration (`~/.artman/config.yaml`); only the local
toolkit override is read by this subsystem. -/
structure UserCfg where
  toolkit : String
deriving DecidableEq, Repr

/-- The artifact config record selected by `loader.load_artifact_config`
(parsing itself is an external collaborator). `aspectName` holds
`Artifact.Aspect.Name(artifact_config.aspect)`. -/
structure ArtifactCfg where
  type : ArtifactType
  language : Language
  aspectName : String
  discovery_doc : String
deriving DecidableEq, Repr

/-- A Python error terminating `normalize_flags`: either `sys.exit(n)`
or an uncaught `ValueError`. -/
inductive PyErr where
  | sysExit (code : Nat)
  | valueError (msg : String)
deriving DecidableEq, Repr

/-- The default of the `--output-dir` flag (source line 51). -/
def DEFAULT_OUTPUT_DIR : String := "./artman-genfiles"

/-- The redaction marker spliced into logged lines (source line 309). -/
def REDACTION_MARKER : String := "<< REDACTED >>"

/-! ## Rendering and redaction (source lines 298-310)

The final `pipeline_args` are dumped to text and logged line by line.
A flat string-valued map renders as one `key: value` line per entry;
the dump's line order does not matter to any claim, so lines are kept
in map order.  Each logged line passes through the redaction step:
`if 'token' in line: index = line.index(':'); line = line[:index + 2] +
'<< REDACTED >>'`.
-/

/-- Rendering of one map entry as the character list `key: value`. -/
def renderLine (kv : String × String) : List Char :=
  kv.1.data ++ (": ").data ++ kv.2.data

/-- The per-line redaction of source lines 307-309. `none` models the
`ValueError` Python's `str.index` raises when the line has no `:`
(never the case for lines rendered from a flat map). -/
def redactChars (line : List Char) : Option (List Char) :=
  if infixOfB ("token").data line then
    if line.contains ':' then
      some (line.take ((line.takeWhile (fun c => c ≠ ':')).length + 2)
            ++ REDACTION_MARKER.data)
    else none
  else some line

/-- The logging loop of source lines 306-310: every rendered line is
redacted in turn; a raised `ValueError` aborts the loop. -/
def redactAll : List (List Char) → Option (List (List Char))
  | [] => some []
  | l :: ls =>
      match redactChars l, redactAll ls with
      | some r, some rs => some (r :: rs)
      | _, _ => none

/-- The observable outcome of a successful `normalize_flags` call: the
returned pipeline name and arguments, the redacted log lines, and the
two warning side effects. -/
structure NormalizeOut where
  pipelineName : String
  pipelineArgs : List (String × String)
  logLines : Option (List (List Char))
  deprecationWarned : Bool
  outputDirWarning : Bool
deriving DecidableEq, Repr

/-! ## Pipeline selection (source lines 262-292) -/

/-- The artifact-type dispatch block of `normalize_flags` (source lines
266-292).  Returns the pipeline name, the updated `pipeline_args`, and
whether the `output_dir`-ignored warning was logged.  `tempDir` is the
directory returned by `tempfile.mkdtemp()` (a fresh per-run scratch
directory), threaded in as an explicit input. -/
def selectPipeline (t : ArtifactType) (language discovery_doc : String)
    (cwd outputDir tempDir : String) (args : List (String × String)) :
    Except String (String × List (String × String) × Bool) :=
  match t with
  | .GAPIC_ONLY =>
      .ok ("GapicOnlyClientPipeline", dictSet args "language" language, false)
  | .GAPIC =>
      .ok ("GapicClientPipeline", dictSet args "language" language, false)
  | .DISCOGAPIC =>
      .ok ("DiscoGapicClientPipeline",
           dictSet (dictSet args "language" language) "discovery_doc" discovery_doc,
           false)
  | .GRPC =>
      .ok ("GrpcClientPipeline", dictSet args "language" language, false)
  | .GAPIC_CONFIG =>
      .ok ("GapicConfigPipeline", args, false)
  | .DISCOGAPIC_CONFIG =>
      .ok ("DiscoGapicConfigPipeline",
           dictSet (dictSet args "discovery_doc" discovery_doc) "output_dir" tempDir,
           abspath cwd outputDir != abspath cwd DEFAULT_OUTPUT_DIR)
  | .PROTOBUF =>
      .ok ("ProtoClientPipeline", dictSet args "language" language, false)
  | .TYPE_UNSPECIFIED => .error "Unrecognized artifact."

/-! ## Config merging (`normalize_flags`, source lines 199-313) -/

/-- Embedding of `normalize_flags`.  External collaborators become
explicit inputs: `cwd` is the working directory, `isfile` the
filesystem's file-existence predicate, `loadResult` the outcome of
`loader.load_artifact_config`, `legacyConfigArgs` the argument map
produced by `config_util.load_config_spec` on the converted legacy
config, and `tempDir` the fresh directory `tempfile.mkdtemp()` would
allocate for this run.  `.error (.sysExit 96)` models the two
`sys.exit(96)` calls; `.error (.valueError m)` the uncaught
`ValueError` of the dispatch's catch-all branch. -/
def normalize_flags (cwd : String) (flags : Flags) (user_config : UserCfg)
    (isfile : String → Bool) (loadResult : Except String ArtifactCfg)
    (legacyConfigArgs : List (String × String)) (tempDir : String) :
    Except PyErr NormalizeOut :=
  let root_dir := if flags.root_dir ≠ "" then abspath cwd flags.root_dir else cwd
  let configPath :=
    if flags.root_dir ≠ "" then pathJoin (abspath cwd flags.root_dir) flags.config
    else abspath cwd flags.config
  let output_dir := abspath cwd flags.output_dir
  let args0 := [("root_dir", root_dir), ("toolkit_path", user_config.toolkit),
                ("generator_args", flags.generator_args)]
  if isfile configPath = false then .error (.sysExit 96)
  else
    match loadResult with
    | .error _ => .error (.sysExit 96)
    | .ok cfg =>
      let language := (languageName cfg.language).toLower
      let warned := !(pyEq (.str language) (.int Artifact_RUBY))
      let args1 :=
        dictSet (dictSet args0 "artifact_type" (typeName cfg.type)) "aspect" cfg.aspectName
      match selectPipeline cfg.type language cfg.discovery_doc cwd output_dir tempDir args1 with
      | .error m => .error (.valueError m)
      | .ok (name, args2, outWarn) =>
        let finalArgs := dictUpdate legacyConfigArgs args2
        .ok { pipelineName := name
              pipelineArgs := finalArgs
              logLines := redactAll (finalArgs.map renderLine)
              deprecationWarned := warned
              outputDirWarning := outWarn }

/-! ## Execution dispatch (`main`, source lines 53-84) -/

/-- Observable events of an execution branch of `main`. -/
inductive RunEvent where
  | logError
  | logInfo
  | logDebug
  | reconcile
deriving DecidableEq, Repr

/-- Python `try/except/finally` of the kind used by `main` and
`_run_artman_in_docker`: the handler runs only when the body raised,
the finalizer always runs, and a `sys.exit` raised by the handler
propagates only after the finalizer completed.  The result pairs the
event trace with the propagating exit code (if any). -/
def pyTryExceptFinally (body : List RunEvent × Bool)
    (handler : List RunEvent × Option Nat) (finalizer : List RunEvent) :
    List RunEvent × Option Nat :=
  match body with
  | (evs, false) => (evs ++ finalizer, none)
  | (evs, true) => (evs ++ handler.1 ++ finalizer, handler.2)

/-- The `flags.local` branch of `main` (source lines 66-78):
`try` pipeline construction and engine run, `except` log the traceback
and `sys.exit(32)`, `finally` run `_change_owner`.  `execOutcome` is
the outcome of the pipeline-construction-plus-run step (an external
collaborator); `.reconcile` marks the `_change_owner` call. -/
def localExecutionBranch (execOutcome : Except String Unit) :
    List RunEvent × Option Nat :=
  pyTryExceptFinally
    (match execOutcome with
     | .ok _ => ([], false)
     | .error _ => ([], true))
    ([.logError], some 32)
    [.reconcile]

/-- The subprocess branch of `_run_artman_in_docker` (source lines
361-373): `try` run the container and log its output, `except` log the
captured output plus a remediation hint and `sys.exit(32)`, `finally`
log the debug command. -/
def dockerExecutionBranch (subprocessResult : Except String String) :
    List RunEvent × Option Nat :=
  pyTryExceptFinally
    (match subprocessResult with
     | .ok _ => ([.logInfo], false)
     | .error _ => ([], true))
    ([.logError, .logError], some 32)
    [.logDebug]

/-! ## Container invocation (`_run_artman_in_docker`, source lines 315-360) -/

/-- The environment marker name set for the containerized run
(source line 50). -/
def RUNNING_IN_ARTMAN_DOCKER_TOKEN : String := "RUNNING_IN_ARTMAN_DOCKER"

/-- Reconstruction of the inner artman command string (source lines
330-336): the original argument vector, each element single-quoted,
joined by spaces; prefixed with an explicit `--root-dir` when the
joined string does not already contain that flag text. -/
def innerArtmanCmdStr (argv : List String) (root_dir : String) : String :=
  let joined := String.intercalate " " (argv.map (fun a => "'" ++ a ++ "'"))
  if strContains joined "--root-dir" then joined
  else "--root-dir " ++ root_dir ++ " " ++ joined

/-- The `base_cmd` list of source lines 339-349, verbatim. -/
def buildDockerBaseCmd (root_dir output_dir artman_config_dirname image : String)
    (uid gid : Nat) : List String :=
  ["docker", "run", "--name", "artman-docker", "--rm", "-i", "-t",
   "-e", "HOST_USER_ID=" ++ toString uid,
   "-e", "HOST_GROUP_ID=" ++ toString gid,
   "-e", RUNNING_IN_ARTMAN_DOCKER_TOKEN ++ "=True",
   "-v", root_dir ++ ":" ++ root_dir,
   "-v", output_dir ++ ":" ++ output_dir,
   "-v", artman_config_dirname ++ ":" ++ artman_config_dirname,
   "-w", root_dir]
  ++ [image, "/bin/bash", "-c"]

/-- The primary container command of source lines 359-360: the base
command with the forced-local inner invocation appended. -/
def buildDockerCmd (root_dir output_dir artman_config_dirname image : String)
    (uid gid : Nat) (argv : List String) : List String :=
  buildDockerBaseCmd root_dir output_dir artman_config_dirname image uid gid
  ++ ["artman --local " ++ innerArtmanCmdStr argv root_dir]

/-- The debug variant of source lines 351-357: forces `--local` on the
inner string and chains an interactive shell after it. -/
def buildDockerDebugCmd (root_dir output_dir artman_config_dirname image : String)
    (uid gid : Nat) (argv : List String) : List String :=
  let inner := innerArtmanCmdStr argv root_dir
  let innerDebug := if strContains inner "--local" then inner else "--local " ++ inner
  buildDockerBaseCmd root_dir output_dir artman_config_dirname image uid gid
  ++ ["\"artman " ++ innerDebug ++ "; bash\""]

/-- Structured reading of the same `docker run` invocation, used to
state what the flat argument vector means: container name, environment
assignments, volume mounts as (host path, container path) pairs,
working directory, image and trailing command. -/
structure DockerRunInvocation where
  containerName : String
  envVars : List (String × String)
  volumes : List (String × String)
  workdir : String
  image : String
  command : List String
deriving DecidableEq, Repr

/-- Flattening a structured invocation into the `docker run` argument
vector shape built by the source. -/
def flattenDockerInvocation (d : DockerRunInvocation) : List String :=
  ["docker", "run", "--name", d.containerName, "--rm", "-i", "-t"]
  ++ d.envVars.flatMap (fun kv => ["-e", kv.1 ++ "=" ++ kv.2])
  ++ d.volumes.flatMap (fun hc => ["-v", hc.1 ++ ":" ++ hc.2])
  ++ ["-w", d.workdir, d.image, "/bin/bash", "-c"]
  ++ d.command

/-- The structured invocation corresponding to `_run_artman_in_docker`'s
primary command. -/
def artmanDockerInvocation (root_dir output_dir artman_config_dirname image : String)
    (uid gid : Nat) (argv : List String) : DockerRunInvocation :=
  { containerName := "artman-docker"
    envVars := [("HOST_USER_ID", toString uid), ("HOST_GROUP_ID", toString gid),
                (RUNNING_IN_ARTMAN_DOCKER_TOKEN, "True")]
    volumes := [(root_dir, root_dir), (output_dir, output_dir),
                (artman_config_dirname, artman_config_dirname)]
    workdir := root_dir
    image := image
    command := ["artman --local " ++ innerArtmanCmdStr argv root_dir] }

/-! ## Ownership reconciliation (source lines 376-419)

The filesystem is modelled as a list of entries carrying a path, the
owning (uid, gid), and whether an `os.chown` call on that path would
succeed (`chownOk = false` models an `OSError`, e.g. `EPERM`).
`os.walk` enumerates every existing path under a directory; the
enumeration order is modelled as filesystem-list order.
-/

/-- One filesystem entry (a file or directory). -/
structure FileEnt where
  path : String
  uid : Nat
  gid : Nat
  chownOk : Bool
deriving DecidableEq, Repr

/-- A filesystem snapshot. -/
abbrev FS := List FileEnt

/-- Whether `p` lies in the tree rooted at `dir` (including `dir`). -/
def isUnder (dir p : String) : Bool :=
  p == dir || strIsPrefixOf (dir ++ "/") p

/-- Model of `os.path.exists`. -/
def fsExists (p : String) (fs : FS) : Bool := fs.any (fun e => e.path == p)

/-- Setting an entry's owner. -/
def setOwner (u g : Nat) (e : FileEnt) : FileEnt := { e with uid := u, gid := g }

/-- The effect of a successful `os.chown(p, u, g)` on one entry. -/
def chownEnt (p : String) (u g : Nat) (e : FileEnt) : FileEnt :=
  if e.path = p then setOwner u g e else e

/-- Model of `os.chown(p, u, g)`: fails when the path does not exist or
when the OS denies the ownership change. -/
def chown (fs : FS) (p : String) (u g : Nat) : Except String FS :=
  match fs.find? (fun e => e.path == p) with
  | none => .error ("ENOENT: " ++ p)
  | some e =>
      if e.chownOk then .ok (fs.map (chownEnt p u g))
      else .error ("EPERM: " ++ p)

/-- The paths `os.walk(dir)` visits: every existing path in the tree
rooted at `dir`. -/
def walkPaths (dir : String) (fs : FS) : List String :=
  (fs.filter (fun e => isUnder dir e.path)).map (fun e => e.path)

/-- Sequential `os.chown` over a list of paths; the first raised
`OSError` aborts the remaining calls, as an uncaught Python exception
would (the second component carries the propagating error). -/
def chownSeq (u g : Nat) : List String → FS → FS × Option String
  | [], fs => (fs, none)
  | p :: ps, fs =>
      match chown fs p u g with
      | .ok fs' => chownSeq u g ps fs'
      | .error e => (fs, some e)

/-- Embedding of `_change_directory_owner` (source lines 410-419):
chown every directory and file under `directory`. -/
def change_directory_owner (directory : String) (u g : Nat) (fs : FS) :
    FS × Option String :=
  chownSeq u g (walkPaths directory fs) fs

/-- Sequencing of two statements of `_change_owner`: an uncaught
exception raised by the first statement (a `some` error) propagates and
the second statement never runs. -/
def andThenOwn (r : FS × Option String) (f : FS → FS × Option String) :
    FS × Option String :=
  match r with
  | (fs, some e) => (fs, some e)
  | (fs, none) => f fs

/-- Source lines 388-389: chown the output directory tree when it
exists. -/
def chown_output_dir (output_dir : String) (u g : Nat) (fs : FS) :
    FS × Option String :=
  if fsExists output_dir fs then change_directory_owner output_dir u g fs
  else (fs, none)

/-- Source lines 392-395: chown the local repo directory tree when the
key is present and the directory exists. -/
def chown_local_repo (pipeline_kwargs : List (String × String)) (u g : Nat)
    (fs : FS) : FS × Option String :=
  match dictGet pipeline_kwargs "local_repo_dir" with
  | some local_repo_dir =>
      if fsExists local_repo_dir fs then
        change_directory_owner local_repo_dir u g fs
      else (fs, none)
  | none => (fs, none)

/-- Source lines 397-407: `pipeline_kwargs['gapic_yaml']` — a missing
key raises `KeyError` — then, for a truthy (non-empty) path that exists
while one of the two config-generation pipelines ran, chown that single
file. -/
def chown_gapic_yaml (pipeline_kwargs : List (String × String))
    (pipeline_name : String) (u g : Nat) (fs : FS) : FS × Option String :=
  match dictGet pipeline_kwargs "gapic_yaml" with
  | none => (fs, some "KeyError: gapic_yaml")
  | some gapic_yaml =>
      if gapic_yaml ≠ "" then
        if fsExists gapic_yaml fs
           && (pipeline_name == "GapicConfigPipeline"
               || pipeline_name == "DiscoGapicConfigPipeline") then
          match chown fs gapic_yaml u g with
          | .ok fs' => (fs', none)
          | .error e => (fs, some e)
        else (fs, none)
      else (fs, none)

/-- Embedding of `_change_owner` (source lines 376-407).  `hostUserId`
and `hostGroupId` model `int(os.getenv('HOST_USER_ID', 0))` and its
group counterpart: `none` is an unset variable, read as `0`.
`output_dir` is `flags.output_dir`; `pipeline_kwargs` is restricted to
its string-valued entries relevant here (`local_repo_dir`,
`gapic_yaml`).  The second component of the result is the error that
propagates out of the function, `none` when it returns normally. -/
def change_owner (hostUserId hostGroupId : Option Nat) (output_dir : String)
    (pipeline_name : String) (pipeline_kwargs : List (String × String))
    (fs : FS) : FS × Option String :=
  let user_host_id := hostUserId.getD 0
  let group_host_id := hostGroupId.getD 0
  if user_host_id = 0 ∨ group_host_id = 0 then (fs, none)
  else
    andThenOwn
      (andThenOwn (chown_output_dir output_dir user_host_id group_host_id fs)
        (chown_local_repo pipeline_kwargs user_host_id group_host_id))
      (chown_gapic_yaml pipeline_kwargs pipeline_name user_host_id group_host_id)

/-- The ownership postcondition of claim C7: every entry in the tree
rooted at `dir` is owned by `(u, g)`. -/
def ownedUnder (dir : String) (u g : Nat) (fs : FS) : Prop :=
  ∀ e ∈ fs, isUnder dir e.path = true → e.uid = u ∧ e.gid = g

/-! ## Basic dictionary lemmas -/

theorem dictGet_dictSet_self (m : List (String × String)) (k v : String) :
    dictGet (dictSet m k v) k = some v := by
  induction m with
  | nil => simp [dictSet, dictGet]
  | cons kv rest ih =>
    by_cases h : kv.1 = k
    · simp [dictSet, h, dictGet]
    · simp [dictSet, h, dictGet, ih]

theorem dictGet_dictSet_ne (m : List (String × String)) (k' k v : String)
    (h : k' ≠ k) : dictGet (dictSet m k' v) k = dictGet m k := by
  induction m with
  | nil => simp [dictSet, dictGet, h]
  | cons kv rest ih =>
    by_cases h2 : kv.1 = k'
    · simp [dictSet, h2, dictGet, h]
    · simp [dictSet, h2, dictGet, ih]

theorem mem_dictSet (m : List (String × String)) (k v : String)
    (p : String × String) (hp : p ∈ dictSet m k v) : p.1 = k ∨ p ∈ m := by
  induction m with
  | nil => simp [dictSet] at hp; simp [hp]
  | cons kv rest ih =>
    by_cases h2 : kv.1 = k
    · simp [dictSet, h2] at hp
      rcases hp with h | h
      · left; rw [h]
      · right; exact List.mem_cons_of_mem _ h
    · simp [dictSet, h2] at hp
      rcases hp with h | h
      · right; rw [h]; exact List.mem_cons_self _ _
      · rcases ih h with h3 | h3
        · left; exact h3
        · right; exact List.mem_cons_of_mem _ h3

theorem mem_dictUpdate (d2 : List (String × String)) :
    ∀ (m : List (String × String)) (p : String × String), p ∈ dictUpdate m d2 →
      (∃ q ∈ d2, p.1 = q.1) ∨ p ∈ m := by
  induction d2 with
  | nil => intro m p hp; right; exact hp
  | cons q rest ih =>
    intro m p hp
    rcases ih (dictSet m q.1 q.2) p hp with h | h
    · rcases h with ⟨q', hq', he⟩
      exact Or.inl ⟨q', List.mem_cons_of_mem _ hq', he⟩
    · rcases mem_dictSet m q.1 q.2 p h with h2 | h2
      · exact Or.inl ⟨q, List.mem_cons_self _ _, h2⟩
      · exact Or.inr h2

theorem dictGet_dictUpdate_not_mem (d2 : List (String × String)) :
    ∀ (m : List (String × String)) (k : String), (∀ q ∈ d2, q.1 ≠ k) →
      dictGet (dictUpdate m d2) k = dictGet m k := by
  induction d2 with
  | nil => intro m k _; rfl
  | cons q rest ih =>
    intro m k h
    have h1 : q.1 ≠ k := h q (List.mem_cons_self _ _)
    have h2 : ∀ q' ∈ rest, q'.1 ≠ k := fun q' hq' => h q' (List.mem_cons_of_mem _ hq')
    calc dictGet (dictUpdate (dictSet m q.1 q.2) rest) k
        = dictGet (dictSet m q.1 q.2) k := ih _ k h2
      _ = dictGet m k := dictGet_dictSet_ne m q.1 k q.2 h1

theorem mem_of_dictGet_eq_some (m : List (String × String)) (k v : String)
    (h : dictGet m k = some v) : (k, v) ∈ m := by
  induction m with
  | nil => simp [dictGet] at h
  | cons kv rest ih =>
    rcases kv with ⟨k1, v1⟩
    by_cases h2 : k1 = k
    · simp only [dictGet, h2, if_pos] at h
      rw [Option.some_inj] at h
      rw [← h2, ← h]
      exact List.mem_cons_self _ _
    · simp only [dictGet, h2, if_neg, if_false] at h
      exact List.mem_cons_of_mem _ (ih h)

/-! ## Substring lemmas -/

theorem infixOfB_iff (sub : List Char) (l : List Char) :
    infixOfB sub l = true ↔ sub <:+: l := by
  induction l with
  | nil =>
    simp only [infixOfB, List.isEmpty_iff, List.infix_nil]
  | cons c rest ih =>
    simp only [infixOfB, Bool.or_eq_true, List.isPrefixOf_iff_prefix, ih,
      List.infix_cons_iff]

theorem strContains_iff (s sub : String) :
    strContains s sub = true ↔ sub.data <:+: s.data := infixOfB_iff _ _

theorem infixOfB_append_right (sub a b : List Char)
    (h : infixOfB sub a = true) : infixOfB sub (a ++ b) = true := by
  rw [infixOfB_iff] at h ⊢
  exact h.trans ⟨[], b, rfl⟩

theorem not_colon_of_strContains_colon_eq_false (k : String)
    (h : strContains k ":" = false) : ∀ c ∈ k.data, c ≠ ':' := by
  intro c hc he
  rw [← Bool.not_eq_true, strContains_iff] at h
  apply h
  subst he
  rcases List.append_of_mem hc with ⟨s, t, he2⟩
  exact ⟨s, t, by rw [he2]; simp⟩

theorem ne_of_strContains_ne (k lit : String)
    (h1 : strContains k "token" = true) (h2 : strContains lit "token" = false) :
    k ≠ lit := by
  intro he
  rw [he, h2] at h1
  exact Bool.false_ne_true h1

/-! ## C1: terminal exit statuses -/

/-- Claim C1 counterexample: the claim asserts the three terminal exit
statuses are pairwise distinct, but the status of a failed local
pipeline execution and the status of a failed containerized execution
are the same number, 32, so the exit code cannot identify which of
those two failure classes occurred. -/
theorem exit_status_collision :
    (localExecutionBranch (.error "pipeline failed")).2 = some 32
    ∧ (dockerExecutionBranch (.error "docker failed")).2 = some 32
    ∧ (localExecutionBranch (.error "pipeline failed")).2
        = (dockerExecutionBranch (.error "docker failed")).2 :=
  ⟨rfl, rfl, rfl⟩

/-- Claim C1 (amended): the config-error exit status 96 (config file
missing, or artifact config invalid) is distinct from the execution
failure status, but local-mode pipeline failure and containerized
execution failure share status 32. -/
theorem exit_statuses_config_vs_execution :
    ∀ (e e' msg : String) (cwd : String) (flags : Flags) (ucfg : UserCfg)
      (legacy : List (String × String)) (temp : String)
      (loadR : Except String ArtifactCfg),
      (localExecutionBranch (.error e)).2 = some 32
      ∧ (dockerExecutionBranch (.error e')).2 = some 32
      ∧ normalize_flags cwd flags ucfg (fun _ => false) loadR legacy temp
          = .error (.sysExit 96)
      ∧ normalize_flags cwd flags ucfg (fun _ => true) (.error msg) legacy temp
          = .error (.sysExit 96)
      ∧ (96 : Nat) ≠ 32 :=
  fun _ _ _ _ _ _ _ _ _ => ⟨rfl, rfl, rfl, rfl, by decide⟩

/-! ## C3: deprecation warning -/

/-- Claim C3 refutation: the deprecation warning is emitted for every
resolved language, including Ruby.  Source line 259 compares the
lowercased language name (a Python `str`) with the enum member
`Artifact.RUBY` (a Python `int`), and a string never equals an integer
in Python, so the branch is taken unconditionally. -/
theorem deprecation_warning_always_emitted :
    (∀ s : String, (!(pyEq (.str s) (.int Artifact_RUBY))) = true)
    ∧ (∀ (cwd : String) (flags : Flags) (ucfg : UserCfg)
        (legacy : List (String × String)) (temp : String) (l : Language)
        (asp disc : String),
        (normalize_flags cwd flags ucfg (fun _ => true)
            (.ok ⟨.GAPIC, l, asp, disc⟩) legacy temp).map
          (fun o => o.deprecationWarned) = .ok true)
    ∧ (normalize_flags "/work" ⟨"", "artman.yaml", "./artman-genfiles", "lib", ""⟩
          ⟨""⟩ (fun _ => true) (.ok ⟨.GAPIC, .RUBY, "ALL", ""⟩) [] "/tmp/t").map
        (fun o => o.deprecationWarned) = .ok true :=
  ⟨fun _ => rfl, fun _ _ _ _ _ _ _ _ => rfl, rfl⟩

/-! ## C4: determinism of the Config Merger -/

/-- Claim C4 (amended): for the six artifact types other than
DISCOGAPIC_CONFIG, `normalize_flags` is a pure function of its fixed
inputs — in particular independent of the scratch directory the run's
`tempfile.mkdtemp()` call would return — so two runs on identical
inputs produce identical PipelineArgs. -/
theorem config_merger_deterministic_for_six_types :
    ∀ (cwd : String) (flags : Flags) (ucfg : UserCfg) (isfile : String → Bool)
      (legacy : List (String × String)) (t1 t2 : String) (lang : Language)
      (asp disc : String),
      normalize_flags cwd flags ucfg isfile (.ok ⟨.GAPIC_ONLY, lang, asp, disc⟩) legacy t1
        = normalize_flags cwd flags ucfg isfile (.ok ⟨.GAPIC_ONLY, lang, asp, disc⟩) legacy t2
      ∧ normalize_flags cwd flags ucfg isfile (.ok ⟨.GAPIC, lang, asp, disc⟩) legacy t1
        = normalize_flags cwd flags ucfg isfile (.ok ⟨.GAPIC, lang, asp, disc⟩) legacy t2
      ∧ normalize_flags cwd flags ucfg isfile (.ok ⟨.DISCOGAPIC, lang, asp, disc⟩) legacy t1
        = normalize_flags cwd flags ucfg isfile (.ok ⟨.DISCOGAPIC, lang, asp, disc⟩) legacy t2
      ∧ normalize_flags cwd flags ucfg isfile (.ok ⟨.GRPC, lang, asp, disc⟩) legacy t1
        = normalize_flags cwd flags ucfg isfile (.ok ⟨.GRPC, lang, asp, disc⟩) legacy t2
      ∧ normalize_flags cwd flags ucfg isfile (.ok ⟨.GAPIC_CONFIG, lang, asp, disc⟩) legacy t1
        = normalize_flags cwd flags ucfg isfile (.ok ⟨.GAPIC_CONFIG, lang, asp, disc⟩) legacy t2
      ∧ normalize_flags cwd flags ucfg isfile (.ok ⟨.PROTOBUF, lang, asp, disc⟩) legacy t1
        = normalize_flags cwd flags ucfg isfile (.ok ⟨.PROTOBUF, lang, asp, disc⟩) legacy t2 :=
  fun _ _ _ _ _ _ _ _ _ _ => ⟨rfl, rfl, rfl, rfl, rfl, rfl⟩

/-- Claim C4 counterexample: for DISCOGAPIC_CONFIG the produced
PipelineArgs embed the freshly allocated scratch directory, so two runs
on identical fixed inputs (differing only in the directory
`tempfile.mkdtemp()` allocates) produce different PipelineArgs. -/
theorem discogapic_config_nondeterministic :
    normalize_flags "/work" ⟨"", "artman.yaml", "./artman-genfiles", "lib", ""⟩
        ⟨""⟩ (fun _ => true) (.ok ⟨.DISCOGAPIC_CONFIG, .RUBY, "ALL", "disco.json"⟩)
        [] "/tmp/artman-scratch-1"
      ≠ normalize_flags "/work" ⟨"", "artman.yaml", "./artman-genfiles", "lib", ""⟩
        ⟨""⟩ (fun _ => true) (.ok ⟨.DISCOGAPIC_CONFIG, .RUBY, "ALL", "disco.json"⟩)
        [] "/tmp/artman-scratch-2"
    ∧ (normalize_flags "/work" ⟨"", "artman.yaml", "./artman-genfiles", "lib", ""⟩
        ⟨""⟩ (fun _ => true) (.ok ⟨.DISCOGAPIC_CONFIG, .RUBY, "ALL", "disco.json"⟩)
        [] "/tmp/artman-scratch-1").map (fun r => dictGet r.pipelineArgs "output_dir")
      = .ok (some "/tmp/artman-scratch-1")
    ∧ (normalize_flags "/work" ⟨"", "artman.yaml", "./artman-genfiles", "lib", ""⟩
        ⟨""⟩ (fun _ => true) (.ok ⟨.DISCOGAPIC_CONFIG, .RUBY, "ALL", "disco.json"⟩)
        [] "/tmp/artman-scratch-2").map (fun r => dictGet r.pipelineArgs "output_dir")
      = .ok (some "/tmp/artman-scratch-2") := by
  refine ⟨?_, rfl, rfl⟩
  intro h
  have h2 := congrArg
    (fun x => match x with
      | Except.ok r => (dictGet r.pipelineArgs "output_dir").getD ""
      | Except.error _ => "") h
  exact absurd h2 (by decide)

/-! ## C6: the reconciler always runs in local mode -/

/-- Claim C6: in local execution mode the Ownership Reconciler
(`_change_owner`) runs on every path — after a normal return of
pipeline construction and engine run, and after any exception
(including the path that exits with the pipeline-failure status 32).
It is the last event of the branch's trace on every path. -/
theorem reconciler_always_runs :
    ∀ (execOutcome : Except String Unit),
      RunEvent.reconcile ∈ (localExecutionBranch execOutcome).1
      ∧ (localExecutionBranch execOutcome).1.getLast? = some RunEvent.reconcile := by
  intro o
  cases o with
  | ok u => exact ⟨List.Mem.head _, rfl⟩
  | error e => exact ⟨List.Mem.tail _ (List.Mem.head _), rfl⟩

/-! ## C2: the pipeline selection table -/

/-- Claim C2: for each of the seven recognized artifact types the
dispatch returns exactly the pipeline name and extra-argument additions
of the spec's table (section 4.2); DISCOGAPIC_CONFIG additionally
overrides `output_dir` with the freshly allocated scratch directory
(also after the merge with the legacy config args, for any legacy map)
and warns exactly when the resolved `--output-dir` differs from the
resolved default; any artifact type outside the seven fails with the
unrecognized-artifact error. -/
theorem pipeline_selection_matches_table :
    ∀ (language discovery_doc cwd outputDir tempDir : String)
      (args : List (String × String)),
      selectPipeline .GAPIC_ONLY language discovery_doc cwd outputDir tempDir args
        = .ok ("GapicOnlyClientPipeline", dictSet args "language" language, false)
      ∧ selectPipeline .GAPIC language discovery_doc cwd outputDir tempDir args
        = .ok ("GapicClientPipeline", dictSet args "language" language, false)
      ∧ selectPipeline .DISCOGAPIC language discovery_doc cwd outputDir tempDir args
        = .ok ("DiscoGapicClientPipeline",
               dictSet (dictSet args "language" language) "discovery_doc" discovery_doc,
               false)
      ∧ selectPipeline .GRPC language discovery_doc cwd outputDir tempDir args
        = .ok ("GrpcClientPipeline", dictSet args "language" language, false)
      ∧ selectPipeline .GAPIC_CONFIG language discovery_doc cwd outputDir tempDir args
        = .ok ("GapicConfigPipeline", args, false)
      ∧ selectPipeline .DISCOGAPIC_CONFIG language discovery_doc cwd outputDir tempDir args
        = .ok ("DiscoGapicConfigPipeline",
               dictSet (dictSet args "discovery_doc" discovery_doc) "output_dir" tempDir,
               decide (abspath cwd outputDir ≠ abspath cwd DEFAULT_OUTPUT_DIR))
      ∧ selectPipeline .PROTOBUF language discovery_doc cwd outputDir tempDir args
        = .ok ("ProtoClientPipeline", dictSet args "language" language, false)
      ∧ selectPipeline .TYPE_UNSPECIFIED language discovery_doc cwd outputDir tempDir args
        = .error "Unrecognized artifact."
      ∧ (∀ (flags : Flags) (ucfg : UserCfg) (legacy : List (String × String))
          (lang : Language) (asp disc : String),
          (normalize_flags cwd flags ucfg (fun _ => true)
              (.ok ⟨.DISCOGAPIC_CONFIG, lang, asp, disc⟩) legacy tempDir).map
            (fun r => dictGet r.pipelineArgs "output_dir") = .ok (some tempDir)) := by
  intro language discovery_doc cwd outputDir tempDir args
  refine ⟨rfl, rfl, rfl, rfl, rfl, ?_, rfl, rfl, ?_⟩
  · simp only [selectPipeline, bne, Except.ok.injEq, Prod.mk.injEq, true_and]
    cases h : decide (abspath cwd outputDir = abspath cwd DEFAULT_OUTPUT_DIR) with
    | true =>
      have := of_decide_eq_true h
      simp [this]
    | false =>
      have := of_decide_eq_false h
      simp [this]
  · intro flags ucfg legacy lang asp disc
    show Except.map _ (Except.ok _) = _
    simp only [Except.map]
    congr 1
    simp only [dictUpdate, List.foldl]
    rw [dictGet_dictSet_self]

/-! ## C9: containerized invocation shape -/

/-- Claim C9: the container command mounts exactly three host paths —
the root directory, the output directory, and the directory containing
the config file — each at the identical container-side path (the flat
`docker run` argument vector is the flattening of a structured
invocation whose volume list is exactly those three self-mounts); the
reconstructed inner command string always carries a `--root-dir`
argument (it is prepended whenever the original argument vector did
not mention it); and the primary inner command always forces
`--local`. -/
theorem docker_invocation_shape :
    ∀ (root_dir output_dir config image : String) (uid gid : Nat)
      (argv : List String),
      (artmanDockerInvocation root_dir output_dir (dirname config) image uid gid argv).volumes
        = [(root_dir, root_dir), (output_dir, output_dir),
           (dirname config, dirname config)]
      ∧ flattenDockerInvocation
          (artmanDockerInvocation root_dir output_dir (dirname config) image uid gid argv)
        = buildDockerCmd root_dir output_dir (dirname config) image uid gid argv
      ∧ strContains (innerArtmanCmdStr argv root_dir) "--root-dir" = true
      ∧ (buildDockerCmd root_dir output_dir (dirname config) image uid gid argv).getLast?
        = some ("artman --local " ++ innerArtmanCmdStr argv root_dir) := by
  intro root_dir output_dir config image uid gid argv
  refine ⟨rfl, rfl, ?_, ?_⟩
  · unfold innerArtmanCmdStr
    cases h : strContains
        (String.intercalate " " (argv.map (fun a => "'" ++ a ++ "'"))) "--root-dir" with
    | true => simp [h]
    | false =>
      simp only [h, if_neg, Bool.false_eq_true, not_false_eq_true, if_false]
      rw [strContains_iff]
      apply List.IsPrefix.isInfix
      simp only [String.data_append, List.append_assoc]
      have h1 : ("--root-dir").data <+: ("--root-dir ").data := by decide
      exact h1.trans (List.prefix_append _ _)
  · unfold buildDockerCmd
    exact List.getLast?_concat _

/-! ## Ownership-reconciliation lemmas -/

theorem chownEnt_path (p : String) (u g : Nat) (e : FileEnt) :
    (chownEnt p u g e).path = e.path := by
  unfold chownEnt setOwner
  split <;> rfl

theorem chownEnt_chownOk (p : String) (u g : Nat) (e : FileEnt) :
    (chownEnt p u g e).chownOk = e.chownOk := by
  unfold chownEnt setOwner
  split <;> rfl

theorem chownEnt_keeps_owner (p : String) (u g : Nat) (e : FileEnt)
    (h1 : e.uid = u) (h2 : e.gid = g) :
    (chownEnt p u g e).uid = u ∧ (chownEnt p u g e).gid = g := by
  unfold chownEnt setOwner
  split
  · exact ⟨rfl, rfl⟩
  · exact ⟨h1, h2⟩

theorem foldl_chownEnt_path (u g : Nat) (ps : List String) :
    ∀ (e : FileEnt), (ps.foldl (fun e' p => chownEnt p u g e') e).path = e.path := by
  induction ps with
  | nil => intro e; rfl
  | cons p ps ih =>
    intro e
    rw [List.foldl_cons, ih, chownEnt_path]

theorem foldl_chownEnt_chownOk (u g : Nat) (ps : List String) :
    ∀ (e : FileEnt), (ps.foldl (fun e' p => chownEnt p u g e') e).chownOk = e.chownOk := by
  induction ps with
  | nil => intro e; rfl
  | cons p ps ih =>
    intro e
    rw [List.foldl_cons, ih, chownEnt_chownOk]

theorem foldl_chownEnt_keeps_owner (u g : Nat) (ps : List String) :
    ∀ (e : FileEnt), e.uid = u → e.gid = g →
      (ps.foldl (fun e' p => chownEnt p u g e') e).uid = u
      ∧ (ps.foldl (fun e' p => chownEnt p u g e') e).gid = g := by
  induction ps with
  | nil => intro e h1 h2; exact ⟨h1, h2⟩
  | cons p ps ih =>
    intro e h1 h2
    rw [List.foldl_cons]
    rcases chownEnt_keeps_owner p u g e h1 h2 with ⟨h3, h4⟩
    exact ih _ h3 h4

theorem foldl_chownEnt_owner (u g : Nat) (ps : List String) :
    ∀ (e : FileEnt), e.path ∈ ps →
      (ps.foldl (fun e' p => chownEnt p u g e') e).uid = u
      ∧ (ps.foldl (fun e' p => chownEnt p u g e') e).gid = g := by
  induction ps with
  | nil => intro e h; exact absurd h (List.not_mem_nil _)
  | cons p ps ih =>
    intro e h
    rw [List.foldl_cons]
    by_cases hp : e.path = p
    · have h1 : (chownEnt p u g e).uid = u ∧ (chownEnt p u g e).gid = g := by
        unfold chownEnt
        rw [if_pos hp]
        exact ⟨rfl, rfl⟩
      exact foldl_chownEnt_keeps_owner u g ps _ h1.1 h1.2
    · have h2 : e.path ∈ ps := by
        rcases List.mem_cons.mp h with h3 | h3
        · exact absurd h3 hp
        · exact h3
      have h3 : (chownEnt p u g e).path ∈ ps := by rw [chownEnt_path]; exact h2
      exact ih _ h3

theorem chown_ok_shape (fs : FS) (p : String) (u g : Nat) (fs' : FS)
    (h : chown fs p u g = .ok fs') : fs' = fs.map (chownEnt p u g) := by
  unfold chown at h
  split at h
  · exact absurd h (by simp)
  · split at h
    · injection h with h2
      exact h2.symm
    · exact absurd h (by simp)

theorem chown_ok_of_all_ok (fs : FS) (p : String) (u g : Nat)
    (hok : ∀ e ∈ fs, e.chownOk = true) (hex : fsExists p fs = true) :
    chown fs p u g = .ok (fs.map (chownEnt p u g)) := by
  have h1 : (fs.find? (fun e => e.path == p)).isSome := by
    rw [List.find?_isSome]
    simpa [fsExists, List.any_eq_true] using hex
  rcases Option.isSome_iff_exists.mp h1 with ⟨e, hf⟩
  have he : e ∈ fs := List.mem_of_find?_eq_some hf
  unfold chown
  rw [hf]
  simp [hok e he]

theorem fsExists_map_chownEnt (q p : String) (u g : Nat) (fs : FS) :
    fsExists q (fs.map (chownEnt p u g)) = fsExists q fs := by
  simp [fsExists, List.any_map, Function.comp_def, chownEnt_path]

theorem all_chownOk_map_chownEnt (p : String) (u g : Nat) (fs : FS)
    (hok : ∀ e ∈ fs, e.chownOk = true) :
    ∀ e ∈ fs.map (chownEnt p u g), e.chownOk = true := by
  intro e' he'
  rcases List.mem_map.mp he' with ⟨e, he, rfl⟩
  rw [chownEnt_chownOk]
  exact hok e he

theorem chownSeq_all_ok (u g : Nat) (ps : List String) :
    ∀ (fs : FS), (∀ e ∈ fs, e.chownOk = true) → (∀ p ∈ ps, fsExists p fs = true) →
      chownSeq u g ps fs
        = (ps.foldl (fun acc p => acc.map (chownEnt p u g)) fs, none) := by
  induction ps with
  | nil => intro fs _ _; rfl
  | cons p ps ih =>
    intro fs hok hex
    have hc := chown_ok_of_all_ok fs p u g hok (hex p (List.mem_cons_self _ _))
    show (match chown fs p u g with
          | .ok fs' => chownSeq u g ps fs'
          | .error e => (fs, some e)) = _
    rw [hc]
    show chownSeq u g ps (fs.map (chownEnt p u g)) = _
    rw [ih (fs.map (chownEnt p u g)) (all_chownOk_map_chownEnt p u g fs hok)
        (fun q hq => by rw [fsExists_map_chownEnt]; exact hex q (List.mem_cons_of_mem _ hq))]
    rfl

theorem foldl_map_chownEnt (u g : Nat) (ps : List String) :
    ∀ (fs : FS), ps.foldl (fun acc p => acc.map (chownEnt p u g)) fs
      = fs.map (fun e => ps.foldl (fun e' p => chownEnt p u g e') e) := by
  induction ps with
  | nil => intro fs; simp
  | cons p ps ih =>
    intro fs
    rw [List.foldl_cons, ih]
    simp [List.map_map, Function.comp_def]

theorem mem_walkPaths (dir : String) (fs : FS) (e : FileEnt) (he : e ∈ fs)
    (hu : isUnder dir e.path = true) : e.path ∈ walkPaths dir fs :=
  List.mem_map_of_mem _ (List.mem_filter.mpr ⟨he, hu⟩)

theorem fsExists_of_mem_walkPaths (dir : String) (fs : FS) (p : String)
    (h : p ∈ walkPaths dir fs) : fsExists p fs = true := by
  rcases List.mem_map.mp h with ⟨e, hef, rfl⟩
  have he : e ∈ fs := (List.mem_filter.mp hef).1
  simp only [fsExists, List.any_eq_true]
  exact ⟨e, he, by simp⟩

theorem change_directory_owner_all_ok (dir : String) (u g : Nat) (fs : FS)
    (hok : ∀ e ∈ fs, e.chownOk = true) :
    change_directory_owner dir u g fs
      = (fs.map (fun e => (walkPaths dir fs).foldl (fun e' p => chownEnt p u g e') e),
         none) := by
  unfold change_directory_owner
  rw [chownSeq_all_ok u g (walkPaths dir fs) fs hok
      (fun p hp => fsExists_of_mem_walkPaths dir fs p hp)]
  rw [foldl_map_chownEnt]

theorem ownedUnder_map_chownEnt (dir : String) (u g : Nat) (p : String) (fs : FS)
    (h : ownedUnder dir u g fs) : ownedUnder dir u g (fs.map (chownEnt p u g)) := by
  intro e' he' hund
  rcases List.mem_map.mp he' with ⟨e, he, rfl⟩
  rw [chownEnt_path] at hund
  unfold chownEnt setOwner
  split
  · exact ⟨rfl, rfl⟩
  · exact h e he hund

theorem ownedUnder_chownSeq (dir : String) (u g : Nat) (ps : List String) :
    ∀ (fs : FS), ownedUnder dir u g fs → ownedUnder dir u g (chownSeq u g ps fs).1 := by
  induction ps with
  | nil => intro fs h; exact h
  | cons p ps ih =>
    intro fs h
    show ownedUnder dir u g
      (match chown fs p u g with
       | .ok fs' => chownSeq u g ps fs'
       | .error e => (fs, some e)).1
    cases hc : chown fs p u g with
    | ok fs' =>
      have h2 := chown_ok_shape fs p u g fs' hc
      exact ih fs' (h2 ▸ ownedUnder_map_chownEnt dir u g p fs h)
    | error e => exact h

theorem ownedUnder_change_directory_owner (d dir : String) (u g : Nat) (fs : FS)
    (h : ownedUnder dir u g fs) :
    ownedUnder dir u g (change_directory_owner d u g fs).1 :=
  ownedUnder_chownSeq dir u g (walkPaths d fs) fs h

theorem ownedUnder_chown_local_repo (dir : String) (u g : Nat)
    (kwargs : List (String × String)) (fs : FS) (h : ownedUnder dir u g fs) :
    ownedUnder dir u g (chown_local_repo kwargs u g fs).1 := by
  unfold chown_local_repo
  split
  · split
    · exact ownedUnder_change_directory_owner _ dir u g fs h
    · exact h
  · exact h

theorem ownedUnder_chown_gapic_yaml (dir : String) (u g : Nat)
    (kwargs : List (String × String)) (pn : String) (fs : FS)
    (h : ownedUnder dir u g fs) :
    ownedUnder dir u g (chown_gapic_yaml kwargs pn u g fs).1 := by
  unfold chown_gapic_yaml
  split
  · exact h
  · next gy hgy =>
    split
    · split
      · split
        · next fs' hc =>
          have h3 := chown_ok_shape fs gy u g fs' hc
          exact h3 ▸ ownedUnder_map_chownEnt dir u g gy fs h
        · exact h
      · exact h
    · exact h

theorem ownedUnder_andThenOwn (dir : String) (u g : Nat) (r : FS × Option String)
    (f : FS → FS × Option String) (h1 : ownedUnder dir u g r.1)
    (h2 : ∀ fs', ownedUnder dir u g fs' → ownedUnder dir u g (f fs').1) :
    ownedUnder dir u g (andThenOwn r f).1 := by
  rcases r with ⟨fs, err⟩
  cases err with
  | none => exact h2 fs h1
  | some e => exact h1

theorem andThenOwn_none (r : FS × Option String) (f : FS → FS × Option String)
    (h : r.2 = none) : andThenOwn r f = f r.1 := by
  rcases r with ⟨fs, err⟩
  cases err with
  | none => rfl
  | some e => exact absurd h (by simp)

theorem andThenOwn_some (r : FS × Option String) (f : FS → FS × Option String)
    (e : String) (h : r.2 = some e) : andThenOwn r f = (r.1, some e) := by
  rcases r with ⟨fs, err⟩
  cases err with
  | none => exact absurd h (by simp)
  | some e' => rw [← h]; rfl

theorem chown_output_dir_all_ok (od : String) (u g : Nat) (fs : FS)
    (hok : ∀ e ∈ fs, e.chownOk = true) :
    (chown_output_dir od u g fs).2 = none
    ∧ ∀ e ∈ (chown_output_dir od u g fs).1, e.chownOk = true := by
  unfold chown_output_dir
  split
  · rw [change_directory_owner_all_ok od u g fs hok]
    refine ⟨rfl, ?_⟩
    intro e' he'
    rcases List.mem_map.mp he' with ⟨e, he, rfl⟩
    rw [foldl_chownEnt_chownOk]
    exact hok e he
  · exact ⟨rfl, hok⟩

theorem chown_local_repo_all_ok (kwargs : List (String × String)) (u g : Nat)
    (fs : FS) (hok : ∀ e ∈ fs, e.chownOk = true) :
    (chown_local_repo kwargs u g fs).2 = none
    ∧ ∀ e ∈ (chown_local_repo kwargs u g fs).1, e.chownOk = true := by
  unfold chown_local_repo
  split
  · split
    · rw [change_directory_owner_all_ok _ u g fs hok]
      refine ⟨rfl, ?_⟩
      intro e' he'
      rcases List.mem_map.mp he' with ⟨e, he, rfl⟩
      rw [foldl_chownEnt_chownOk]
      exact hok e he
    · exact ⟨rfl, hok⟩
  · exact ⟨rfl, hok⟩

/-! ## C7: ownership reconciliation and the host identity -/

/-- Claim C7: when either host-identity component is zero or unset the
reconciler returns immediately with the filesystem unchanged; when both
are set and non-zero (and the output directory exists and the OS
permits every ownership change), every file and directory under the
output directory tree ends the run owned by that identity. -/
theorem ownership_reconciliation_identity :
    (∀ (hostUserId hostGroupId : Option Nat) (output_dir pipeline_name : String)
       (kwargs : List (String × String)) (fs : FS),
       hostUserId.getD 0 = 0 ∨ hostGroupId.getD 0 = 0 →
       change_owner hostUserId hostGroupId output_dir pipeline_name kwargs fs
         = (fs, none))
    ∧ (∀ (u g : Nat) (output_dir pipeline_name : String)
        (kwargs : List (String × String)) (fs : FS),
        u ≠ 0 → g ≠ 0 → fsExists output_dir fs = true →
        (∀ e ∈ fs, e.chownOk = true) →
        ownedUnder output_dir u g
          (change_owner (some u) (some g) output_dir pipeline_name kwargs fs).1) := by
  constructor
  · intro hostUserId hostGroupId od pn kwargs fs h
    show (if hostUserId.getD 0 = 0 ∨ hostGroupId.getD 0 = 0 then (fs, none)
          else _) = (fs, none)
    exact if_pos h
  · intro u g od pn kwargs fs hu hg hex hok
    have hbase : ownedUnder od u g (chown_output_dir od u g fs).1 := by
      unfold chown_output_dir
      rw [if_pos hex]
      rw [change_directory_owner_all_ok od u g fs hok]
      intro e' he' hund
      rcases List.mem_map.mp he' with ⟨e, he, rfl⟩
      rw [foldl_chownEnt_path] at hund
      exact foldl_chownEnt_owner u g _ e (mem_walkPaths od fs e he hund)
    show ownedUnder od u g
      (if u = 0 ∨ g = 0 then (fs, none)
       else andThenOwn
         (andThenOwn (chown_output_dir od u g fs) (chown_local_repo kwargs u g))
         (chown_gapic_yaml kwargs pn u g)).1
    rw [if_neg (not_or.mpr ⟨hu, hg⟩)]
    exact ownedUnder_andThenOwn od u g _ _
      (ownedUnder_andThenOwn od u g _ _ hbase
        (fun fs' h' => ownedUnder_chown_local_repo od u g kwargs fs' h'))
      (fun fs' h' => ownedUnder_chown_gapic_yaml od u g kwargs pn fs' h')

/-- Claim C7 witness: the no-op branch at a concrete unset user id, and
the full-ownership conclusion at a concrete populated output tree. -/
theorem ownership_reconciliation_identity_witness :
    change_owner none (some 5) "/out" "GapicClientPipeline" []
        [⟨"/out", 0, 0, true⟩] = ([⟨"/out", 0, 0, true⟩], none)
    ∧ ownedUnder "/out" 1000 1000
        (change_owner (some 1000) (some 1000) "/out" "GapicClientPipeline"
          [("gapic_yaml", "")]
          [⟨"/out", 0, 0, true⟩, ⟨"/out/sub", 0, 0, true⟩, ⟨"/etc", 7, 7, true⟩]).1 :=
  ⟨ownership_reconciliation_identity.1 none (some 5) "/out" "GapicClientPipeline"
      [] [⟨"/out", 0, 0, true⟩] (Or.inl rfl),
   ownership_reconciliation_identity.2 1000 1000 "/out" "GapicClientPipeline"
      [("gapic_yaml", "")]
      [⟨"/out", 0, 0, true⟩, ⟨"/out/sub", 0, 0, true⟩, ⟨"/etc", 7, 7, true⟩]
      (by decide) (by decide) (by decide)
      (by intro e he
          simp only [List.mem_cons, List.not_mem_nil, or_false] at he
          rcases he with rfl | rfl | rfl <;> rfl)⟩

/-! ## C8: per-path ownership errors -/

/-- Claim C8 counterexample: per-path ownership errors are not surfaced
as warnings.  With both identity components set, an `EPERM` failure on
`/out/a` propagates out of the reconciler (`some "EPERM: /out/a"`), and
the later path `/out/b` is left unreconciled (still owned by 0:0). -/
theorem ownership_error_not_contained :
    change_owner (some 1000) (some 1000) "/out" "GapicClientPipeline"
        [("gapic_yaml", "")]
        [⟨"/out", 0, 0, true⟩, ⟨"/out/a", 0, 0, false⟩, ⟨"/out/b", 0, 0, true⟩]
      = ([⟨"/out", 1000, 1000, true⟩, ⟨"/out/a", 0, 0, false⟩, ⟨"/out/b", 0, 0, true⟩],
         some "EPERM: /out/a") := by
  rfl

/-- Claim C8 (amended): the reconciler has no per-path error handling —
the first ownership-change error raised while walking the output tree
aborts reconciliation of the remaining paths and propagates out of
`_change_owner` unchanged (the local-repo and gapic-yaml steps never
run). -/
theorem chown_error_propagates :
    ∀ (u g : Nat) (output_dir pipeline_name : String)
      (kwargs : List (String × String)) (fs fs1 : FS) (err : String),
      u ≠ 0 → g ≠ 0 → fsExists output_dir fs = true →
      change_directory_owner output_dir u g fs = (fs1, some err) →
      change_owner (some u) (some g) output_dir pipeline_name kwargs fs
        = (fs1, some err) := by
  intro u g od pn kwargs fs fs1 err hu hg hex hw
  show (if u = 0 ∨ g = 0 then (fs, none)
        else andThenOwn
          (andThenOwn (chown_output_dir od u g fs) (chown_local_repo kwargs u g))
          (chown_gapic_yaml kwargs pn u g)) = (fs1, some err)
  rw [if_neg (not_or.mpr ⟨hu, hg⟩)]
  have h1 : chown_output_dir od u g fs = (fs1, some err) := by
    unfold chown_output_dir
    rw [if_pos hex]
    exact hw
  rw [h1]
  rw [andThenOwn_some (fs1, some err) _ err rfl]
  rw [andThenOwn_some _ _ err rfl]

/-- Claim C8 (amended) witness: the propagation theorem applied to a
concrete two-entry tree whose second path refuses the ownership
change. -/
theorem chown_error_propagates_witness :
    change_owner (some 1000) (some 1000) "/out" "ProtoClientPipeline"
        [("gapic_yaml", "/cfg/x.yaml")]
        [⟨"/out", 0, 0, true⟩, ⟨"/out/a", 0, 0, false⟩]
      = ([⟨"/out", 1000, 1000, true⟩, ⟨"/out/a", 0, 0, false⟩],
         some "EPERM: /out/a") :=
  chown_error_propagates 1000 1000 "/out" "ProtoClientPipeline"
    [("gapic_yaml", "/cfg/x.yaml")]
    [⟨"/out", 0, 0, true⟩, ⟨"/out/a", 0, 0, false⟩]
    [⟨"/out", 1000, 1000, true⟩, ⟨"/out/a", 0, 0, false⟩]
    "EPERM: /out/a" (by decide) (by decide) (by decide) (by rfl)

/-! ## C10: the gapic_yaml key is an unchecked precondition -/

/-- Claim C10: with both identity components non-zero (and the OS
permitting every ownership change), a pipeline-argument map lacking the
`gapic_yaml` key makes the reconciler raise `KeyError` instead of
completing, whereas a missing `local_repo_dir` key is harmless (its
presence is checked before access; with `gapic_yaml` present the
reconciler returns normally). -/
theorem gapic_yaml_key_is_precondition :
    ∀ (u g : Nat) (output_dir pipeline_name : String)
      (kwargs : List (String × String)) (fs : FS),
      u ≠ 0 → g ≠ 0 → (∀ e ∈ fs, e.chownOk = true) →
      (dictGet kwargs "gapic_yaml" = none →
        (change_owner (some u) (some g) output_dir pipeline_name kwargs fs).2
          = some "KeyError: gapic_yaml")
      ∧ (dictGet kwargs "local_repo_dir" = none →
         dictGet kwargs "gapic_yaml" = some "" →
         (change_owner (some u) (some g) output_dir pipeline_name kwargs fs).2
           = none) := by
  intro u g od pn kwargs fs hu hg hok
  have h1 := chown_output_dir_all_ok od u g fs hok
  have h2 := chown_local_repo_all_ok kwargs u g (chown_output_dir od u g fs).1 h1.2
  have hco : change_owner (some u) (some g) od pn kwargs fs
      = chown_gapic_yaml kwargs pn u g
          (chown_local_repo kwargs u g (chown_output_dir od u g fs).1).1 := by
    show (if u = 0 ∨ g = 0 then (fs, none)
          else andThenOwn
            (andThenOwn (chown_output_dir od u g fs) (chown_local_repo kwargs u g))
            (chown_gapic_yaml kwargs pn u g)) = _
    rw [if_neg (not_or.mpr ⟨hu, hg⟩)]
    rw [andThenOwn_none _ _ h1.1]
    rw [andThenOwn_none _ _ h2.1]
  constructor
  · intro hnone
    rw [hco]
    unfold chown_gapic_yaml
    rw [hnone]
  · intro _ hgy
    rw [hco]
    unfold chown_gapic_yaml
    rw [hgy]
    simp

/-- Claim C10 witness: the `KeyError` at a concrete argument map
without `gapic_yaml`, and normal completion at a map carrying
`gapic_yaml` but no `local_repo_dir`. -/
theorem gapic_yaml_key_is_precondition_witness :
    (change_owner (some 42) (some 42) "/out" "GapicClientPipeline"
        [("language", "ruby")] [⟨"/out", 0, 0, true⟩]).2
      = some "KeyError: gapic_yaml"
    ∧ (change_owner (some 42) (some 42) "/out" "GapicClientPipeline"
        [("gapic_yaml", "")] [⟨"/out", 0, 0, true⟩]).2 = none :=
  ⟨(gapic_yaml_key_is_precondition 42 42 "/out" "GapicClientPipeline"
      [("language", "ruby")] [⟨"/out", 0, 0, true⟩]
      (by decide) (by decide)
      (by intro e he
          simp only [List.mem_cons, List.not_mem_nil, or_false] at he
          rcases he with rfl; rfl)).1 (by rfl),
   (gapic_yaml_key_is_precondition 42 42 "/out" "GapicClientPipeline"
      [("gapic_yaml", "")] [⟨"/out", 0, 0, true⟩]
      (by decide) (by decide)
      (by intro e he
          simp only [List.mem_cons, List.not_mem_nil, or_false] at he
          rcases he with rfl; rfl)).2 (by rfl) (by rfl)⟩

/-! ## Redaction lemmas -/

theorem redactAll_spec (ls : List (List Char))
    (h : ∀ l ∈ ls, (redactChars l).isSome = true) :
    ∃ rs, redactAll ls = some rs
      ∧ (∀ r ∈ rs, ∃ l ∈ ls, redactChars l = some r)
      ∧ (∀ l ∈ ls, ∃ r ∈ rs, redactChars l = some r) := by
  induction ls with
  | nil => exact ⟨[], rfl, by simp, by simp⟩
  | cons l ls ih =>
    rcases Option.isSome_iff_exists.mp (h l (List.mem_cons_self _ _)) with ⟨r, hr⟩
    rcases ih (fun l' hl' => h l' (List.mem_cons_of_mem _ hl')) with ⟨rs, hrs, hback, hfwd⟩
    refine ⟨r :: rs, ?_, ?_, ?_⟩
    · show (match redactChars l, redactAll ls with
            | some r, some rs => some (r :: rs)
            | _, _ => none) = some (r :: rs)
      rw [hr, hrs]
    · intro r' hr'
      rcases List.mem_cons.mp hr' with rfl | hr2
      · exact ⟨l, List.mem_cons_self _ _, hr⟩
      · rcases hback r' hr2 with ⟨l', hl', he⟩
        exact ⟨l', List.mem_cons_of_mem _ hl', he⟩
    · intro l' hl'
      rcases List.mem_cons.mp hl' with rfl | hl2
      · exact ⟨r, List.mem_cons_self _ _, hr⟩
      · rcases hfwd l' hl2 with ⟨r', hr2, he⟩
        exact ⟨r', List.mem_cons_of_mem _ hr2, he⟩

theorem redactChars_renderLine (k v : String) (hk : ∀ c ∈ k.data, c ≠ ':') :
    redactChars (renderLine (k, v))
      = if infixOfB ("token").data (renderLine (k, v))
        then some (k.data ++ (": ").data ++ REDACTION_MARKER.data)
        else some (renderLine (k, v)) := by
  unfold redactChars
  by_cases ht : infixOfB ("token").data (renderLine (k, v)) = true
  · rw [if_pos ht, if_pos ht]
    have hcontains : (renderLine (k, v)).contains ':' = true := by
      show List.elem ':' (renderLine (k, v)) = true
      rw [List.elem_iff]
      unfold renderLine
      exact List.mem_append_left _ (List.mem_append_right _ (List.mem_cons_self _ _))
    rw [if_pos hcontains]
    have htw : (renderLine (k, v)).takeWhile (fun c => c ≠ ':') = k.data := by
      show ((k.data ++ (": ").data) ++ v.data).takeWhile (fun c => decide (c ≠ ':')) = k.data
      rw [List.append_assoc]
      rw [List.takeWhile_append_of_pos (fun a ha => by simpa using hk a ha)]
      show k.data ++ List.takeWhile _ (':' :: (' ' :: v.data)) = k.data
      rw [List.takeWhile_cons]
      simp
    rw [htw]
    have hlen : (k.data ++ (": ").data).length = k.data.length + 2 := by
      rw [List.length_append]
      rfl
    show some (((k.data ++ (": ").data) ++ v.data).take (k.data.length + 2)
              ++ REDACTION_MARKER.data) = _
    rw [List.take_left' hlen]
  · rw [if_neg ht, if_neg ht]

theorem eq_of_prefix_colon :
    ∀ (a b r : List Char), (∀ c ∈ a, c ≠ ':') → (∀ c ∈ b, c ≠ ':') →
      (b ++ [':']) <+: (a ++ ':' :: r) → b = a := by
  intro a
  induction a with
  | nil =>
    intro b r _ hb hp
    cases b with
    | nil => rfl
    | cons y b' =>
      rw [List.cons_append, List.nil_append] at hp
      rcases (List.cons_prefix_cons.mp hp).1 with rfl
      exact absurd rfl (hb _ (List.mem_cons_self _ _))
  | cons x a' ih =>
    intro b r ha hb hp
    cases b with
    | nil =>
      rw [List.nil_append, List.cons_append] at hp
      rcases (List.cons_prefix_cons.mp hp).1 with rfl
      exact absurd rfl (ha _ (List.mem_cons_self _ _))
    | cons y b' =>
      rw [List.cons_append, List.cons_append] at hp
      rcases List.cons_prefix_cons.mp hp with ⟨rfl, hp2⟩
      rw [ih b' r (fun c hc => ha c (List.mem_cons_of_mem _ hc))
          (fun c hc => hb c (List.mem_cons_of_mem _ hc)) hp2]

theorem selectPipeline_keys (t : ArtifactType) (l d cwd o temp : String)
    (a : List (String × String)) (n : String) (a2 : List (String × String))
    (w : Bool) (h : selectPipeline t l d cwd o temp a = .ok (n, a2, w)) :
    ∀ p ∈ a2, p.1 = "language" ∨ p.1 = "discovery_doc" ∨ p.1 = "output_dir" ∨ p ∈ a := by
  cases t with
  | GAPIC_ONLY =>
    simp only [selectPipeline, Except.ok.injEq, Prod.mk.injEq] at h
    intro p hp
    rw [← h.2.1] at hp
    rcases mem_dictSet _ _ _ _ hp with h2 | h2
    · exact Or.inl h2
    · exact Or.inr (Or.inr (Or.inr h2))
  | GAPIC =>
    simp only [selectPipeline, Except.ok.injEq, Prod.mk.injEq] at h
    intro p hp
    rw [← h.2.1] at hp
    rcases mem_dictSet _ _ _ _ hp with h2 | h2
    · exact Or.inl h2
    · exact Or.inr (Or.inr (Or.inr h2))
  | DISCOGAPIC =>
    simp only [selectPipeline, Except.ok.injEq, Prod.mk.injEq] at h
    intro p hp
    rw [← h.2.1] at hp
    rcases mem_dictSet _ _ _ _ hp with h2 | h2
    · exact Or.inr (Or.inl h2)
    · rcases mem_dictSet _ _ _ _ h2 with h3 | h3
      · exact Or.inl h3
      · exact Or.inr (Or.inr (Or.inr h3))
  | GRPC =>
    simp only [selectPipeline, Except.ok.injEq, Prod.mk.injEq] at h
    intro p hp
    rw [← h.2.1] at hp
    rcases mem_dictSet _ _ _ _ hp with h2 | h2
    · exact Or.inl h2
    · exact Or.inr (Or.inr (Or.inr h2))
  | GAPIC_CONFIG =>
    simp only [selectPipeline, Except.ok.injEq, Prod.mk.injEq] at h
    intro p hp
    rw [← h.2.1] at hp
    exact Or.inr (Or.inr (Or.inr hp))
  | DISCOGAPIC_CONFIG =>
    simp only [selectPipeline, Except.ok.injEq, Prod.mk.injEq] at h
    intro p hp
    rw [← h.2.1] at hp
    rcases mem_dictSet _ _ _ _ hp with h2 | h2
    · exact Or.inr (Or.inr (Or.inl h2))
    · rcases mem_dictSet _ _ _ _ h2 with h3 | h3
      · exact Or.inr (Or.inl h3)
      · exact Or.inr (Or.inr (Or.inr h3))
  | PROTOBUF =>
    simp only [selectPipeline, Except.ok.injEq, Prod.mk.injEq] at h
    intro p hp
    rw [← h.2.1] at hp
    rcases mem_dictSet _ _ _ _ hp with h2 | h2
    · exact Or.inl h2
    · exact Or.inr (Or.inr (Or.inr h2))
  | TYPE_UNSPECIFIED => simp [selectPipeline] at h

theorem mem_args1 (root toolkit gen x y : String) (p : String × String)
    (hp : p ∈ dictSet (dictSet [("root_dir", root), ("toolkit_path", toolkit),
        ("generator_args", gen)] "artifact_type" x) "aspect" y) :
    p.1 = "aspect" ∨ p.1 = "artifact_type" ∨ p.1 = "root_dir"
    ∨ p.1 = "toolkit_path" ∨ p.1 = "generator_args" := by
  rcases mem_dictSet _ _ _ _ hp with h | h
  · exact Or.inl h
  · rcases mem_dictSet _ _ _ _ h with h2 | h2
    · exact Or.inr (Or.inl h2)
    · simp only [List.mem_cons, List.not_mem_nil, or_false] at h2
      rcases h2 with rfl | rfl | rfl
      · exact Or.inr (Or.inr (Or.inl rfl))
      · exact Or.inr (Or.inr (Or.inr (Or.inl rfl)))
      · exact Or.inr (Or.inr (Or.inr (Or.inr rfl)))

/-! ## C5: redaction of rendered token lines -/

theorem redaction_after_select (t : ArtifactType)
    (L D cwd OD temp root toolkit gen x y : String)
    (legacy : List (String × String)) (n : String)
    (a2 : List (String × String)) (w : Bool)
    (hsel : selectPipeline t L D cwd OD temp
        (dictSet (dictSet [("root_dir", root), ("toolkit_path", toolkit),
          ("generator_args", gen)] "artifact_type" x) "aspect" y) = .ok (n, a2, w))
    (k v : String)
    (hk : strContains k "token" = true)
    (hkc : strContains k ":" = false)
    (hleg : ∀ kv ∈ legacy, strContains kv.1 ":" = false)
    (hget : dictGet legacy k = some v) :
    dictGet (dictUpdate legacy a2) k = some v
    ∧ ∃ ls, redactAll ((dictUpdate legacy a2).map renderLine) = some ls
        ∧ (k.data ++ (": ").data ++ REDACTION_MARKER.data) ∈ ls
        ∧ ∀ l ∈ ls, (k.data ++ (": ").data).isPrefixOf l = true →
            l = k.data ++ (": ").data ++ REDACTION_MARKER.data := by
  -- keys added by the selector are colon-free and token-free
  have hclean : ∀ p ∈ a2, strContains p.1 ":" = false ∧ strContains p.1 "token" = false := by
    intro p hp
    rcases selectPipeline_keys _ _ _ _ _ _ _ _ _ _ hsel p hp with h | h | h | h
    · rw [h]; exact ⟨by decide, by decide⟩
    · rw [h]; exact ⟨by decide, by decide⟩
    · rw [h]; exact ⟨by decide, by decide⟩
    · rcases mem_args1 root toolkit gen x y p h with h2 | h2 | h2 | h2 | h2 <;>
        (rw [h2]; exact ⟨by decide, by decide⟩)
  -- all keys of the merged map are colon-free
  have hallc : ∀ p ∈ dictUpdate legacy a2, strContains p.1 ":" = false := by
    intro p hp
    rcases mem_dictUpdate a2 legacy p hp with ⟨q, hq, he⟩ | h
    · rw [he]; exact (hclean q hq).1
    · exact hleg p h
  -- the token key is none of the selector keys
  have hne : ∀ q ∈ a2, q.1 ≠ k :=
    fun q hq => (ne_of_strContains_ne k q.1 hk (hclean q hq).2).symm
  have hget2 : dictGet (dictUpdate legacy a2) k = some v := by
    rw [dictGet_dictUpdate_not_mem a2 legacy k hne]; exact hget
  have hkcolon : ∀ c ∈ k.data, c ≠ ':' := not_colon_of_strContains_colon_eq_false k hkc
  refine ⟨hget2, ?_⟩
  have hsome : ∀ l ∈ (dictUpdate legacy a2).map renderLine, (redactChars l).isSome = true := by
    intro l hl
    rcases List.mem_map.mp hl with ⟨⟨k', v'⟩, hkv, rfl⟩
    rw [redactChars_renderLine k' v'
        (not_colon_of_strContains_colon_eq_false k' (hallc _ hkv))]
    split <;> rfl
  rcases redactAll_spec _ hsome with ⟨ls, hls, hback, hfwd⟩
  refine ⟨ls, hls, ?_, ?_⟩
  · have hmem : (k, v) ∈ dictUpdate legacy a2 := mem_of_dictGet_eq_some _ k v hget2
    have hline : renderLine (k, v) ∈ (dictUpdate legacy a2).map renderLine :=
      List.mem_map_of_mem _ hmem
    rcases hfwd _ hline with ⟨r, hr, he⟩
    rw [redactChars_renderLine k v hkcolon] at he
    have htok : infixOfB ("token").data (renderLine (k, v)) = true := by
      show infixOfB ("token").data ((k.data ++ (": ").data) ++ v.data) = true
      exact infixOfB_append_right _ _ _ (infixOfB_append_right _ _ _ hk)
    rw [if_pos htok, Option.some_inj] at he
    rw [← he] at hr
    exact hr
  · intro l hl hpre
    rcases hback l hl with ⟨line, hline, he⟩
    rcases List.mem_map.mp hline with ⟨⟨k', v'⟩, hkv, rfl⟩
    have hk'colon : ∀ c ∈ k'.data, c ≠ ':' :=
      not_colon_of_strContains_colon_eq_false k' (hallc _ hkv)
    rw [redactChars_renderLine k' v' hk'colon] at he
    have hp1 : (k.data ++ [':']) <+: l := by
      have h0 : (k.data ++ [':']) <+: (k.data ++ (": ").data) := by
        rw [show (": ").data = [':'] ++ [' '] from rfl, ← List.append_assoc]
        exact List.prefix_append _ _
      exact h0.trans (List.isPrefixOf_iff_prefix.mp hpre)
    by_cases htok : infixOfB ("token").data (renderLine (k', v')) = true
    · rw [if_pos htok, Option.some_inj] at he
      have hl2 : l = k'.data ++ ':' :: (' ' :: REDACTION_MARKER.data) := by
        rw [← he, List.append_assoc]
        rfl
      rw [hl2] at hp1
      have hkk : k.data = k'.data :=
        eq_of_prefix_colon k'.data k.data (' ' :: REDACTION_MARKER.data)
          hk'colon hkcolon hp1
      rw [hl2, ← hkk, List.append_assoc]
      rfl
    · rw [if_neg htok, Option.some_inj] at he
      exfalso
      have hl2 : l = k'.data ++ ':' :: (' ' :: v'.data) := by
        rw [← he]
        show (k'.data ++ (": ").data) ++ v'.data = _
        rw [List.append_assoc]
        rfl
      rw [hl2] at hp1
      have hkk : k.data = k'.data :=
        eq_of_prefix_colon k'.data k.data (' ' :: v'.data) hk'colon hkcolon hp1
      apply htok
      show infixOfB ("token").data ((k'.data ++ (": ").data) ++ v'.data) = true
      rw [← hkk]
      exact infixOfB_append_right _ _ _ (infixOfB_append_right _ _ _ hk)

/-- Claim C5: in the rendered text block logged before returning,
every rendered line whose key contains the substring "token" has its
value replaced by the fixed redaction marker — any logged line carrying
such a key is exactly `key: << REDACTED >>`, so the original value
never appears on that line — while the PipelineArgs map returned to the
executor still carries the original, unredacted value.  (The rendering
hypotheses require the map's keys to be colon-free, which the flat
`key: value` line discipline of the dump presupposes.) -/
theorem redaction_of_rendered_lines :
    ∀ (cwd : String) (flags : Flags) (ucfg : UserCfg)
      (legacy : List (String × String)) (cfg : ArtifactCfg) (temp : String)
      (out : NormalizeOut) (k v : String),
      normalize_flags cwd flags ucfg (fun _ => true) (.ok cfg) legacy temp = .ok out →
      strContains k "token" = true →
      strContains k ":" = false →
      (∀ kv ∈ legacy, strContains kv.1 ":" = false) →
      dictGet legacy k = some v →
      dictGet out.pipelineArgs k = some v
      ∧ ∃ ls, out.logLines = some ls
          ∧ (k.data ++ (": ").data ++ REDACTION_MARKER.data) ∈ ls
          ∧ ∀ l ∈ ls, (k.data ++ (": ").data).isPrefixOf l = true →
              l = k.data ++ (": ").data ++ REDACTION_MARKER.data := by
  intro cwd flags ucfg legacy cfg temp out k v hnorm hk hkc hleg hget
  obtain ⟨t, lang, asp, disc⟩ := cfg
  cases t
  case TYPE_UNSPECIFIED =>
    exact absurd hnorm (by simp [normalize_flags, selectPipeline])
  case GAPIC_ONLY =>
    injection hnorm with h2
    subst h2
    exact redaction_after_select .GAPIC_ONLY _ disc cwd (abspath cwd flags.output_dir) temp _ _ _ _ _ legacy _ _ _ rfl
      k v hk hkc hleg hget
  case GAPIC =>
    injection hnorm with h2
    subst h2
    exact redaction_after_select .GAPIC _ disc cwd (abspath cwd flags.output_dir) temp _ _ _ _ _ legacy _ _ _ rfl
      k v hk hkc hleg hget
  case DISCOGAPIC =>
    injection hnorm with h2
    subst h2
    exact redaction_after_select .DISCOGAPIC _ disc cwd (abspath cwd flags.output_dir) temp _ _ _ _ _ legacy _ _ _ rfl
      k v hk hkc hleg hget
  case GRPC =>
    injection hnorm with h2
    subst h2
    exact redaction_after_select .GRPC _ disc cwd (abspath cwd flags.output_dir) temp _ _ _ _ _ legacy _ _ _ rfl
      k v hk hkc hleg hget
  case GAPIC_CONFIG =>
    injection hnorm with h2
    subst h2
    exact redaction_after_select .GAPIC_CONFIG ((languageName lang).toLower) disc cwd
      (abspath cwd flags.output_dir) temp _ _ _ _ _ legacy _ _ _ rfl
      k v hk hkc hleg hget
  case DISCOGAPIC_CONFIG =>
    injection hnorm with h2
    subst h2
    exact redaction_after_select .DISCOGAPIC_CONFIG ((languageName lang).toLower) disc cwd
      (abspath cwd flags.output_dir) temp _ _ _ _ _ legacy _ _ _ rfl
      k v hk hkc hleg hget
  case PROTOBUF =>
    injection hnorm with h2
    subst h2
    exact redaction_after_select .PROTOBUF _ disc cwd (abspath cwd flags.output_dir) temp _ _ _ _ _ legacy _ _ _ rfl
      k v hk hkc hleg hget

/-- Claim C5 witness: the redaction theorem applied to a concrete run
whose legacy config args carry a `github_token` entry. -/
theorem redaction_of_rendered_lines_witness :
    ∃ out, normalize_flags "/work" ⟨"", "artman.yaml", "./artman-genfiles", "lib", ""⟩ ⟨""⟩
        (fun _ => true) (.ok ⟨.GAPIC, .RUBY, "ALL", ""⟩)
        [("github_token", "secret123"), ("gapic_yaml", "/work/x.yaml")] "/tmp/t" = .ok out
      ∧ dictGet out.pipelineArgs "github_token" = some "secret123"
      ∧ ∃ ls, out.logLines = some ls
          ∧ (("github_token").data ++ (": ").data ++ REDACTION_MARKER.data) ∈ ls
          ∧ ∀ l ∈ ls, (("github_token").data ++ (": ").data).isPrefixOf l = true →
              l = ("github_token").data ++ (": ").data ++ REDACTION_MARKER.data := by
  refine ⟨_, rfl, ?_⟩
  have h := redaction_of_rendered_lines "/work"
      ⟨"", "artman.yaml", "./artman-genfiles", "lib", ""⟩ ⟨""⟩
      [("github_token", "secret123"), ("gapic_yaml", "/work/x.yaml")]
      ⟨.GAPIC, .RUBY, "ALL", ""⟩ "/tmp/t" _ "github_token" "secret123"
      rfl (by decide) (by decide)
      (by intro kv hkv
          simp only [List.mem_cons, List.not_mem_nil, or_false] at hkv
          rcases hkv with rfl | rfl <;> decide)
      rfl
  exact ⟨h.1, h.2⟩

end Artman
